import Mathlib

/-!
# Shallow embedding of the jimeng-api token pool (`src/lib/session-pool.ts`)

The `TokenPool` class keeps its entries in a JS `Map<string, TokenPoolEntry>`:
string keys, unique, iterated in insertion order, mutated in place.  We model
the map as a `List TokenPoolEntry`, where map update rewrites the first entry
carrying the given token (theorems that need key uniqueness take the
`Nodup` of the token list as a hypothesis).

Not modelled: disk persistence (`loadFromDisk`/`persistToDisk`), logging and
the background timer; none of them feed back into the selection or lifecycle
logic proved about here.  Upstream collaborators from
`src/api/controllers/core.ts` (`getTokenLiveStatus`, `getCredit`, the dynamic
capability fetch) are oracles passed in as a `HealthCollaborators` record.
`_.sample` (a uniform random element of a list) is modelled by an extra
`sampleIdx : Nat` argument that indexes the list modulo its length, so a
theorem quantifying over `sampleIdx` covers every outcome the random
strategy can produce.  `Date.now()` is a `now : Nat` argument; one health
check pass receives a single `now`.
-/

namespace Jimeng

/-- `RegionCode` from `core.ts`: the five supported region codes. -/
inductive RegionCode
  | cn
  | us
  | hk
  | jp
  | sg
deriving DecidableEq

/-- `TokenDynamicCapabilities` (session-pool.ts, lines 24-29). -/
structure TokenDynamicCapabilities where
  imageModels : Option (List String)
  videoModels : Option (List String)
  capabilityTags : Option (List String)
  updatedAt : Option Nat
deriving DecidableEq

/-- `TokenPoolEntry` (session-pool.ts, lines 31-43). -/
structure TokenPoolEntry where
  token : String
  region : Option RegionCode
  enabled : Bool
  live : Option Bool
  lastCheckedAt : Option Nat
  lastError : Option String
  lastCredit : Option Int
  consecutiveFailures : Nat
  allowedModels : Option (List String)
  capabilityTags : Option (List String)
  dynamicCapabilities : Option TokenDynamicCapabilities
deriving DecidableEq

/-- `PickStrategy` (line 50). -/
inductive PickStrategy
  | random
  | round_robin
deriving DecidableEq

/-- `AuthorizationTokenError` (line 51). -/
inductive AuthorizationTokenError
  | invalid_authorization_format
  | empty_authorization_tokens
deriving DecidableEq

/-- `RequestTokenError` (lines 52-57). -/
inductive RequestTokenError
  | invalid_authorization_format
  | empty_authorization_tokens
  | prefixed_token_not_supported
  | unsupported_region
  | missing_region
  | no_matching_token
deriving DecidableEq

/-- The inclusion of `AuthorizationTokenError` into `RequestTokenError`
(the TS union types overlap; Lean inductives need an explicit map). -/
def AuthorizationTokenError.toRequestTokenError :
    AuthorizationTokenError → RequestTokenError
  | .invalid_authorization_format => .invalid_authorization_format
  | .empty_authorization_tokens => .empty_authorization_tokens

/-- `RequestTokenPickResult` (lines 64-69). -/
structure RequestTokenPickResult where
  token : Option String
  region : Option RegionCode
  error : Option RequestTokenError
  reason : Option String
deriving DecidableEq

/-- `TokenTaskType` (line 71). -/
inductive TokenTaskType
  | image
  | video
deriving DecidableEq

/-- `CandidateToken` (lines 724-733). -/
structure CandidateToken where
  token : String
  region : Option RegionCode
  allowedModels : Option (List String)
  capabilityTags : Option (List String)
  dynamicCapabilities : Option TokenDynamicCapabilities
  enabled : Bool
  live : Bool
  prefixedToken : Bool
deriving DecidableEq

/-- The `TokenPool` object: its configuration (fixed at construction from the
environment, lines 99-116) and its mutable state.  `filePath`, timers and
the `initialized` flag drive only I/O and are not modelled. -/
structure TokenPool where
  enabled : Bool
  fetchCreditOnCheck : Bool
  autoDisableEnabled : Bool
  autoDisableFailures : Nat
  pickStrategy : PickStrategy
  entries : List TokenPoolEntry
  healthChecking : Bool
  lastHealthCheckAt : Option Nat
  roundRobinCursor : Nat
deriving DecidableEq

/-- JS whitespace (`\s`, and the class `String.prototype.trim` strips):
tab, LF, VT, FF, CR, space, NBSP and the BOM; the rarer Unicode space code
points play no role in any claim and are omitted. -/
def jsIsSpace (c : Char) : Bool :=
  c.toNat = 32 || c.toNat = 9 || c.toNat = 10 || c.toNat = 11
    || c.toNat = 12 || c.toNat = 13 || c.toNat = 160 || c.toNat = 65279

/-- ASCII lower-casing, the fragment of `String.prototype.toLowerCase`
the region-mark tests depend on. -/
def jsCharLower (c : Char) : Char :=
  if 65 ≤ c.toNat ∧ c.toNat ≤ 90 then Char.ofNat (c.toNat + 32) else c

/-- `String.prototype.trim`. -/
def jsTrim (s : String) : String :=
  String.mk (((s.toList.dropWhile jsIsSpace).reverse.dropWhile jsIsSpace).reverse)

/-- `String.prototype.toLowerCase` (ASCII fragment). -/
def jsToLower (s : String) : String :=
  String.mk (s.toList.map jsCharLower)

/-- `String.prototype.startsWith`. -/
def jsStartsWith (s pat : String) : Bool :=
  pat.toList.isPrefixOf s.toList

/-- `String.prototype.split(",")`: `""` yields `[""]`, separators at the
ends yield empty pieces. -/
def splitCommaAux : List Char → List Char → List String
  | [], acc => [String.mk acc.reverse]
  | c :: rest, acc =>
    if c = ',' then String.mk acc.reverse :: splitCommaAux rest []
    else splitCommaAux rest (c :: acc)

/-- `String.prototype.split(",")`. -/
def jsSplitComma (s : String) : List String :=
  splitCommaAux s.toList []

/-- Modelled from the spec: `parseRegionCode` lives in
`src/api/controllers/core.ts`, which is not among the provided sources.
Spec §4.2: "accepts exactly the five codes, case-sensitive, else null". -/
def parseRegionCode : Option String → Option RegionCode
  | some "cn" => some .cn
  | some "us" => some .us
  | some "hk" => some .hk
  | some "jp" => some .jp
  | some "sg" => some .sg
  | _ => none

/-- Modelled from the spec: `assertTokenWithoutRegionPrefix` lives in
`src/api/controllers/core.ts`, which is not among the provided sources.
Spec §4.2: it "throws if token starts with a deprecated
`cn-|us-|hk-|jp-|sg-` prefix (case-insensitive)".  This is its throw
condition. -/
def tokenHasDeprecatedRegionMark (token : String) : Bool :=
  let n := jsToLower token
  jsStartsWith n "cn-" || jsStartsWith n "us-" || jsStartsWith n "hk-"
    || jsStartsWith n "jp-" || jsStartsWith n "sg-"

/-- `TokenPool.hasLegacyPrefix` (lines 600-606).  Note: it tests only the
four marks `us- hk- jp- sg-` on the trimmed, lower-cased token; `cn-` is
not among them. -/
def hasLegacyPrefix (token : String) : Bool :=
  let normalized := jsToLower (jsTrim token)
  jsStartsWith normalized "us-" || jsStartsWith normalized "hk-"
    || jsStartsWith normalized "jp-" || jsStartsWith normalized "sg-"

/-- `TokenPool.maskToken` (lines 496-499). -/
def maskToken (token : String) : String :=
  if token.length ≤ 10 then "***"
  else String.mk (token.toList.take 4) ++ "..."
    ++ String.mk (token.toList.drop (token.length - 4))

/-- `entryMap.get(token)`: the first (in a real JS `Map`, the unique) entry
carrying `tk`. -/
def lookupEntry (entries : List TokenPoolEntry) (tk : String) : Option TokenPoolEntry :=
  entries.find? (fun e => decide (e.token = tk))

/-- Mutation of the entry object `entryMap.get(tk)`: rewrite the first entry
carrying `tk` with `f`. -/
def updateEntry : List TokenPoolEntry → String → (TokenPoolEntry → TokenPoolEntry) →
    List TokenPoolEntry
  | [], _, _ => []
  | e :: rest, tk, f =>
    if e.token = tk then f e :: rest else e :: updateEntry rest tk f

/-- The test of `/^Bearer\s+/i` (line 505): the six letters of "bearer"
case-insensitively, then at least one whitespace character. -/
def bearerHeaderTest (s : String) : Bool :=
  match s.toList with
  | b :: e :: a :: r :: e2 :: r2 :: c :: _ =>
    ([b, e, a, r, e2, r2].map jsCharLower == ['b', 'e', 'a', 'r', 'e', 'r'])
      && jsIsSpace c
  | _ => false

/-- `authorization.replace(/^Bearer\s+/i, "")` (line 509), on inputs where
`bearerHeaderTest` holds: drop the six "Bearer" letters and the maximal
whitespace run after them. -/
def stripBearer (s : String) : String :=
  String.mk ((s.toList.drop 6).dropWhile jsIsSpace)

/-- `TokenPool.parseAuthorizationTokens` (lines 501-515). -/
def parseAuthorizationTokens (authorization : Option String) :
    List String × Option AuthorizationTokenError :=
  match authorization with
  | none => ([], none)
  | some s =>
    if (jsTrim s).length = 0 then ([], none)
    else if bearerHeaderTest s = false then
      ([], some .invalid_authorization_format)
    else
      let tokens := ((jsSplitComma (stripBearer s)).map jsTrim).filter
        (fun t => decide (t ≠ ""))
      if tokens.length = 0 then ([], some .empty_authorization_tokens)
      else (tokens, none)

/-- `TokenPool.buildCandidateFromPoolEntry` (lines 570-581).  The TS return
type admits `null` but the body always returns a candidate, so the model is
total. -/
def buildCandidateFromPoolEntry (entry : TokenPoolEntry) : CandidateToken :=
  { token := entry.token
    region := entry.region
    allowedModels := entry.allowedModels
    capabilityTags := entry.capabilityTags
    dynamicCapabilities := entry.dynamicCapabilities
    enabled := entry.enabled
    live := decide (entry.live ≠ some false)
    prefixedToken := hasLegacyPrefix entry.token }

/-- `TokenPool.buildCandidateFromAuthToken` (lines 583-598). -/
def buildCandidateFromAuthToken (pool : TokenPool) (token : String)
    (xRegion : Option RegionCode) : CandidateToken :=
  match lookupEntry pool.entries token with
  | some entry => buildCandidateFromPoolEntry entry
  | none =>
    { token := token
      region := xRegion
      allowedModels := none
      capabilityTags := none
      dynamicCapabilities := none
      enabled := true
      live := true
      prefixedToken := hasLegacyPrefix token }

/-- The dynamic model list consulted for `taskType` (lines 629-631), with
the JS optional chain flattened: an absent list behaves as the empty one
(both are falsy at line 632). -/
def dynamicModelsFor (c : CandidateToken) (taskType : TokenTaskType) : List String :=
  match taskType with
  | .image => (c.dynamicCapabilities.bind (fun d => d.imageModels)).getD []
  | .video => (c.dynamicCapabilities.bind (fun d => d.videoModels)).getD []

/-- The merged tag set of lines 636-639 (kept as a list; only membership is
consulted). -/
def mergedCapabilityTags (c : CandidateToken) : List String :=
  c.capabilityTags.getD []
    ++ (c.dynamicCapabilities.bind (fun d => d.capabilityTags)).getD []

/-- The capability-tag loop of lines 635-643: every required tag must be in
the merged set (vacuously true when no tag is required, as in TS where the
loop body is skipped). -/
def capabilityTagsOk (c : CandidateToken) (requiredCapabilityTags : List String) : Bool :=
  requiredCapabilityTags.all (fun tag => (mergedCapabilityTags c).contains tag)

/-- `TokenPool.matchesModelAndCapabilities` (lines 617-645); the early
`return false`s become one conjunction. -/
def matchesModelAndCapabilities (c : CandidateToken) (requestedModel : String)
    (taskType : TokenTaskType) (requiredCapabilityTags : List String) : Bool :=
  c.enabled && c.live && c.region.isSome
    && (if (c.allowedModels.getD []).length ≠ 0 then
          (c.allowedModels.getD []).contains requestedModel
        else
          (dynamicModelsFor c taskType).isEmpty
            || (dynamicModelsFor c taskType).contains requestedModel)
    && capabilityTagsOk c requiredCapabilityTags

/-- The candidate the TS code would read from an empty list (where
`candidates[idx]` is `undefined`); every call site passes a non-empty
list, so this default is never the result there. -/
def defaultCandidate : CandidateToken :=
  { token := ""
    region := none
    allowedModels := none
    capabilityTags := none
    dynamicCapabilities := none
    enabled := false
    live := false
    prefixedToken := false }

/-- `TokenPool.pickCandidate` (lines 608-615).  `_.sample` is modelled by
`sampleIdx`; the random branch does not advance the round-robin cursor. -/
def pickCandidate (pool : TokenPool) (candidates : List CandidateToken)
    (sampleIdx : Nat) : CandidateToken × TokenPool :=
  match pool.pickStrategy with
  | .round_robin =>
    (candidates.getD (pool.roundRobinCursor % candidates.length) defaultCandidate,
     { pool with roundRobinCursor := pool.roundRobinCursor + 1 })
  | .random =>
    (candidates.getD (sampleIdx % candidates.length) defaultCandidate, pool)

/-- `TokenPool.getAllTokens` (lines 162-170). -/
def getAllTokens (pool : TokenPool) (onlyEnabled : Bool) (preferLive : Bool) :
    List String :=
  ((pool.entries.filter (fun item =>
      (!onlyEnabled || item.enabled)
        && (!preferLive || decide (item.live ≠ some false)))).map
    (fun item => item.token))

/-- `TokenPool.pickToken` (lines 200-210); callers pass no options, so
`onlyEnabled = preferLive = true`. -/
def pickToken (pool : TokenPool) (sampleIdx : Nat) : Option String × TokenPool :=
  if pool.enabled = false then (none, pool)
  else
    let tokens := getAllTokens pool true true
    if tokens.length = 0 then (none, pool)
    else
      match pool.pickStrategy with
      | .round_robin =>
        (some (tokens.getD (pool.roundRobinCursor % tokens.length) ""),
         { pool with roundRobinCursor := pool.roundRobinCursor + 1 })
      | .random => (some (tokens.getD (sampleIdx % tokens.length) ""), pool)

/-- The guard of lines 226-228: `xRegion` is a non-blank string that parses
to no region code. -/
def xRegionRejected (xRegion : Option String) : Bool :=
  match xRegion with
  | some s => decide (0 < (jsTrim s).length) && (parseRegionCode (some s)).isNone
  | none => false

/-- The candidate set of lines 236-238. -/
def candidatesFor (pool : TokenPool) (authTokens : List String)
    (xRegionCode : Option RegionCode) : List CandidateToken :=
  if 0 < authTokens.length then
    authTokens.map (fun t => buildCandidateFromAuthToken pool t xRegionCode)
  else
    pool.entries.map buildCandidateFromPoolEntry

/-- The filter of line 255, `item.region === (xRegionCode || item.region)`:
with a header region the regions must agree; without one the test is
trivially true. -/
def regionLockOk (xRegionCode : Option RegionCode) (item : CandidateToken) : Bool :=
  match xRegionCode with
  | some r => decide (item.region = some r)
  | none => true

/-- `TokenPool.pickTokenForRequest` (lines 212-275).  The returned pool
carries the advanced round-robin cursor when a candidate was picked under
that strategy; entries are never mutated by this method. -/
def pickTokenForRequest (pool : TokenPool) (authorization : Option String)
    (requestedModel : String) (taskType : TokenTaskType)
    (requiredCapabilityTags : List String) (xRegion : Option String)
    (sampleIdx : Nat) : RequestTokenPickResult × TokenPool :=
  let xRegionCode := parseRegionCode xRegion
  if xRegionRejected xRegion then
    ({ token := none, region := none, error := some .unsupported_region,
       reason := some "X-Region 仅支持 cn/us/hk/jp/sg" }, pool)
  else
    match parseAuthorizationTokens authorization with
    | (_, some authError) =>
      ({ token := none, region := none,
         error := some authError.toRequestTokenError, reason := none }, pool)
    | (authTokens, none) =>
      let validCandidates := candidatesFor pool authTokens xRegionCode
      if validCandidates.length = 0 then
        ({ token := none, region := none, error := some .no_matching_token,
           reason := some "未找到可评估的 token 候选集" }, pool)
      else
        match validCandidates.find? (fun item => item.prefixedToken) with
        | some prefixedCandidate =>
          ({ token := none, region := none,
             error := some .prefixed_token_not_supported,
             reason := some ("token " ++ maskToken prefixedCandidate.token
               ++ " 使用了已废弃的 region 前缀") }, pool)
        | none =>
          let regionReadyCandidates :=
            (validCandidates.filter (regionLockOk xRegionCode)).filter
              (fun item => item.region.isSome)
          if regionReadyCandidates.length = 0 then
            ({ token := none, region := none, error := some .missing_region,
               reason := some "候选 token 缺少 region，或与 X-Region 不匹配" }, pool)
          else
            let matched := regionReadyCandidates.filter (fun item =>
              matchesModelAndCapabilities item requestedModel taskType
                requiredCapabilityTags)
            if matched.length = 0 then
              ({ token := none,
                 region := match xRegionCode with
                   | some r => some r
                   | none => (regionReadyCandidates.headD defaultCandidate).region,
                 error := some .no_matching_token,
                 reason := some ("region 已匹配，但无 token 支持模型 "
                   ++ requestedModel) }, pool)
            else
              let picked := pickCandidate pool matched sampleIdx
              ({ token := some picked.1.token, region := picked.1.region,
                 error := none, reason := none }, picked.2)

/-- `AddTokenInput` (lines 73-79).  The TS `region` field is typed
`RegionCode?`; `normalizeAddTokens` re-parses it with `parseRegionCode`,
which on an already-valid code is the identity, so the model takes the
typed value directly. -/
structure AddTokenInput where
  token : String
  region : Option RegionCode
  enabled : Option Bool
  allowedModels : Option (List String)
  capabilityTags : Option (List String)
deriving DecidableEq

/-- One element of `addTokens`' raw input, `string | AddTokenInput`. -/
inductive RawTokenInput
  | str (value : String)
  | obj (value : AddTokenInput)
deriving DecidableEq

/-- `TokenPool.normalizeStringArray` (lines 547-553): trim, drop blanks,
de-duplicate keeping first occurrences (`Array.from(new Set(...))`), and an
empty result becomes `undefined`. -/
def normalizeStringArray (value : Option (List String)) : Option (List String) :=
  match value with
  | none => none
  | some items0 =>
    let items := (items0.map jsTrim).filter (fun s => decide (s ≠ ""))
    if items.length ≠ 0 then some items.eraseDups else none

/-- The shape `normalizeAddTokens` pushes: both its branches guarantee a
region. -/
structure NormalizedAddToken where
  token : String
  region : RegionCode
  enabled : Option Bool
  allowedModels : Option (List String)
  capabilityTags : Option (List String)
deriving DecidableEq

/-- `TokenPool.normalizeAddTokens` (lines 517-545).  A thrown `Error`
becomes `Except.error` with the thrown message; it aborts the whole call
before any pool mutation. -/
def normalizeAddTokens : List RawTokenInput → Option RegionCode →
    Except String (List NormalizedAddToken)
  | [], _ => .ok []
  | .str value :: rest, defaultRegion =>
    let token := jsTrim value
    if token = "" then normalizeAddTokens rest defaultRegion
    else
      match defaultRegion with
      | none => .error "新增 token 必须指定 region（通过 body.region 或 tokens[].region）"
      | some region => do
        let tail ← normalizeAddTokens rest defaultRegion
        return { token := token, region := region, enabled := some true,
                 allowedModels := none, capabilityTags := none } :: tail
  | .obj value :: rest, defaultRegion =>
    let token := jsTrim value.token
    if token = "" then normalizeAddTokens rest defaultRegion
    else
      match (match value.region with | some r => some r | none => defaultRegion) with
      | none =>
        .error ("token " ++ maskToken token ++ " 缺少有效 region（仅支持 cn/us/hk/jp/sg）")
      | some region => do
        let tail ← normalizeAddTokens rest defaultRegion
        return { token := token, region := region, enabled := value.enabled,
                 allowedModels := normalizeStringArray value.allowedModels,
                 capabilityTags := normalizeStringArray value.capabilityTags } :: tail

/-- The entry `addTokens` stores for a fresh token (lines 288-300). -/
def newPoolEntry (n : NormalizedAddToken) : TokenPoolEntry :=
  { token := n.token
    region := some n.region
    enabled := decide (n.enabled ≠ some false)
    live := none
    lastCheckedAt := none
    lastError := none
    lastCredit := none
    consecutiveFailures := 0
    allowedModels :=
      match n.allowedModels with
      | some l => if l.length ≠ 0 then some l.eraseDups else none
      | none => none
    capabilityTags :=
      match n.capabilityTags with
      | some l => if l.length ≠ 0 then some l.eraseDups else none
      | none => none
    dynamicCapabilities := none }

/-- The loop of `addTokens` (lines 284-302).  A token already present is
skipped before `assertTokenWithoutRegionPrefix` runs; a throw from that
assert (third component `some msg`) stops the loop but keeps the insertions
already made, as the in-memory `Map` mutations survive the exception. -/
def addTokensLoop : List NormalizedAddToken → List TokenPoolEntry → Nat →
    List TokenPoolEntry × Nat × Option String
  | [], entries, added => (entries, added, none)
  | n :: rest, entries, added =>
    if (lookupEntry entries n.token).isSome then addTokensLoop rest entries added
    else if tokenHasDeprecatedRegionMark n.token then
      (entries, added, some "assertTokenWithoutRegionPrefix")
    else addTokensLoop rest (entries ++ [newPoolEntry n]) (added + 1)

/-- `TokenPool.addTokens` (lines 277-308): the pool after the call, the
`added` count, and the thrown error, if any. -/
def addTokens (pool : TokenPool) (rawTokens : List RawTokenInput)
    (defaultRegion : Option RegionCode) : TokenPool × Nat × Option String :=
  if pool.enabled = false then (pool, 0, none)
  else
    match normalizeAddTokens rawTokens defaultRegion with
    | .error msg => (pool, 0, some msg)
    | .ok normalized =>
      let r := addTokensLoop normalized pool.entries 0
      ({ pool with entries := r.1 }, r.2.1, r.2.2)

/-- `entryMap.delete(tk)`: remove the first (unique) entry carrying `tk`. -/
def eraseEntry (entries : List TokenPoolEntry) (tk : String) : List TokenPoolEntry :=
  entries.eraseP (fun e => decide (e.token = tk))

/-- `TokenPool.removeTokens` (lines 310-322). -/
def removeTokens (pool : TokenPool) (rawTokens : List String) : TokenPool × Nat :=
  if pool.enabled = false then (pool, 0)
  else
    let tokens := (rawTokens.map jsTrim).filter (fun t => decide (t ≠ ""))
    let r := tokens.foldl
      (fun acc t =>
        if (lookupEntry acc.1 t).isSome then (eraseEntry acc.1 t, acc.2 + 1)
        else (acc.1, acc.2))
      (pool.entries, 0)
    ({ pool with entries := r.1 }, r.2)

/-- `TokenPool.setTokenEnabled` (lines 324-332). -/
def setTokenEnabled (pool : TokenPool) (token : String) (enabled : Bool) :
    TokenPool × Bool :=
  if pool.enabled = false then (pool, false)
  else
    match lookupEntry pool.entries token with
    | none => (pool, false)
    | some _ =>
      ({ pool with entries := updateEntry pool.entries token (fun item =>
          { item with enabled := enabled,
                      live := if enabled = false then some false else item.live }) },
       true)

/-- `TokenPool.syncTokenCheckResult` (lines 334-354). -/
def syncTokenCheckResult (pool : TokenPool) (token : String) (live : Bool)
    (now : Nat) : TokenPool × Bool :=
  if pool.enabled = false then (pool, false)
  else
    match lookupEntry pool.entries token with
    | none => (pool, false)
    | some _ =>
      ({ pool with entries := updateEntry pool.entries token (fun item =>
          let item := { item with lastCheckedAt := some now, live := some live }
          if live then
            { item with enabled := true, consecutiveFailures := 0, lastError := none }
          else
            let item := { item with
              consecutiveFailures := item.consecutiveFailures + 1,
              lastError := some "token_not_live" }
            if pool.autoDisableEnabled
                && decide (pool.autoDisableFailures ≤ item.consecutiveFailures) then
              { item with enabled := false }
            else item) },
       true)

/-- The outcome of one `getTokenLiveStatus` call: resolved with a boolean,
or rejected with an error message. -/
inductive LiveOutcome
  | ok (live : Bool)
  | err (msg : String)
deriving DecidableEq

/-- The upstream collaborators of `runHealthCheck`, from `core.ts` (out of
scope per the spec): liveness, credit and dynamic-capability probes.
`buildRegionInfo` returns a non-null info object for each of the five
codes, so the oracles take the `RegionCode` itself. -/
structure HealthCollaborators where
  getTokenLiveStatus : String → RegionCode → LiveOutcome
  getCredit : String → RegionCode → Except String Int
  fetchDynamicCapabilities : String → RegionCode → Except String TokenDynamicCapabilities

/-- `DYNAMIC_CAPABILITY_TTL_MS` (line 81). -/
def DYNAMIC_CAPABILITY_TTL_MS : Nat := 30 * 60 * 1000

/-- `TokenPool.refreshDynamicCapabilitiesIfNeeded` (lines 647-659).  JS
`now - lastUpdated` can be negative, in which case it is `< TTL` and the
refresh is skipped; truncated `Nat` subtraction gives `0 < TTL` there, the
same branch. -/
def refreshDynamicCapabilitiesIfNeeded (collab : HealthCollaborators) (now : Nat)
    (item : TokenPoolEntry) (region : RegionCode) : TokenPoolEntry :=
  let lastUpdated := (item.dynamicCapabilities.bind (fun d => d.updatedAt)).getD 0
  if now - lastUpdated < DYNAMIC_CAPABILITY_TTL_MS then item
  else
    match collab.fetchDynamicCapabilities item.token region with
    | .ok capabilities =>
      { item with dynamicCapabilities := some { capabilities with updatedAt := some now } }
    | .error msg =>
      { item with lastError := some ("dynamic_capability_refresh_failed: " ++ msg) }

/-- The counters `runHealthCheck` returns (lines 360-365). -/
structure HealthStats where
  checked : Nat
  live : Nat
  invalid : Nat
  disabled : Nat
deriving DecidableEq

/-- Lines 390-417: the per-entry mutation of a health check on an entry
that has a region, before the auto-disable step. -/
def healthCheckOutcomeUpdate (pool : TokenPool) (collab : HealthCollaborators)
    (now : Nat) (region : RegionCode) (e : TokenPoolEntry) : TokenPoolEntry :=
  let e := { e with lastCheckedAt := some now }
  match collab.getTokenLiveStatus e.token region with
  | .ok true =>
    let e := { e with live := some true, lastError := none, consecutiveFailures := 0 }
    let e := refreshDynamicCapabilitiesIfNeeded collab now e region
    if pool.fetchCreditOnCheck then
      match collab.getCredit e.token region with
      | .ok credit => { e with lastCredit := some credit }
      | .error msg => { e with lastError := some ("credit_check_failed: " ++ msg) }
    else e
  | .ok false =>
    { e with live := some false, consecutiveFailures := e.consecutiveFailures + 1,
             lastError := some "token_not_live" }
  | .err msg =>
    { e with live := some false, consecutiveFailures := e.consecutiveFailures + 1,
             lastError := some msg }

/-- Lines 419-426: the auto-disable step at the end of one entry's check. -/
def autoDisableUpdate (pool : TokenPool) (e : TokenPoolEntry) : TokenPoolEntry :=
  if pool.autoDisableEnabled
      && decide (pool.autoDisableFailures ≤ e.consecutiveFailures) then
    { e with enabled := false, live := some false }
  else e

/-- Lines 383-389: the marking of an enabled entry with no region, applied
before `lastCheckedAt` is touched; the `continue` skips the auto-disable
step for such entries. -/
def missingRegionUpdate (e : TokenPoolEntry) : TokenPoolEntry :=
  { e with live := some false, lastError := some "missing_region",
           consecutiveFailures := e.consecutiveFailures + 1 }

/-- One iteration of the `runHealthCheck` loop (lines 378-427) for the
snapshot token `tk`, acting on the live entry list and the counters. -/
def healthCheckStep (pool : TokenPool) (collab : HealthCollaborators) (now : Nat)
    (acc : List TokenPoolEntry × HealthStats) (tk : String) :
    List TokenPoolEntry × HealthStats :=
  let entries := acc.1
  let stats := { acc.2 with checked := acc.2.checked + 1 }
  match lookupEntry entries tk with
  | none => (entries, stats)
  | some current =>
    if current.enabled = false then (entries, stats)
    else
      match current.region with
      | none =>
        (updateEntry entries tk missingRegionUpdate,
         { stats with invalid := stats.invalid + 1 })
      | some region =>
        let checkedEntry := healthCheckOutcomeUpdate pool collab now region current
        let fired := pool.autoDisableEnabled
          && decide (pool.autoDisableFailures ≤ checkedEntry.consecutiveFailures)
        let stats :=
          match collab.getTokenLiveStatus current.token region with
          | .ok true => { stats with live := stats.live + 1 }
          | _ => { stats with invalid := stats.invalid + 1 }
        let stats := if fired then { stats with disabled := stats.disabled + 1 } else stats
        (updateEntry entries tk (fun e =>
           autoDisableUpdate pool (healthCheckOutcomeUpdate pool collab now region e)),
         stats)

/-- `TokenPool.runHealthCheck` (lines 360-437).  The snapshot of enabled
entries is taken up front (`getEntries(false).filter(enabled)`); the loop
then re-reads each entry from the live map. -/
def runHealthCheck (pool : TokenPool) (collab : HealthCollaborators) (now : Nat) :
    TokenPool × HealthStats :=
  if pool.enabled = false then (pool, ⟨0, 0, 0, 0⟩)
  else if pool.healthChecking then (pool, ⟨0, 0, 0, 0⟩)
  else
    let snapshot := (pool.entries.filter (fun item => item.enabled)).map
      (fun item => item.token)
    let r := snapshot.foldl (healthCheckStep pool collab now)
      (pool.entries, ⟨0, 0, 0, 0⟩)
    ({ pool with entries := r.1, lastHealthCheckAt := some now }, r.2)

/-! ## Helper lemmas about the entry-map model -/

theorem lookupEntry_token (entries : List TokenPoolEntry) (tk : String)
    (e : TokenPoolEntry) (h : lookupEntry entries tk = some e) : e.token = tk := by
  unfold lookupEntry at h
  have hp := List.find?_some h
  simpa using hp

theorem mem_of_lookupEntry (entries : List TokenPoolEntry) (tk : String)
    (e : TokenPoolEntry) (h : lookupEntry entries tk = some e) : e ∈ entries := by
  unfold lookupEntry at h
  exact List.mem_of_find?_eq_some h

theorem lookupEntry_isSome_of_mem (entries : List TokenPoolEntry)
    (e : TokenPoolEntry) (he : e ∈ entries) :
    (lookupEntry entries e.token).isSome := by
  unfold lookupEntry
  exact List.find?_isSome.mpr ⟨e, he, by simp⟩

theorem lookupEntry_of_mem_nodup (entries : List TokenPoolEntry)
    (hN : (entries.map (fun x => x.token)).Nodup) (e : TokenPoolEntry)
    (he : e ∈ entries) : lookupEntry entries e.token = some e := by
  induction entries with
  | nil => cases he
  | cons a l ih =>
    rw [List.mem_cons] at he
    rcases he with rfl | he
    · simp [lookupEntry, List.find?]
    · have hat : a.token ≠ e.token := by
        intro hc
        have hmem : e.token ∈ l.map (fun x => x.token) := List.mem_map_of_mem _ he
        simp only [List.map_cons, List.nodup_cons] at hN
        exact hN.1 (hc ▸ hmem)
      have hN' : (l.map (fun x => x.token)).Nodup := by
        simp only [List.map_cons, List.nodup_cons] at hN
        exact hN.2
      unfold lookupEntry
      rw [List.find?_cons_of_neg _ (by simpa using hat)]
      exact ih hN' he

theorem token_inj_of_nodup (entries : List TokenPoolEntry)
    (hN : (entries.map (fun x => x.token)).Nodup) (a b : TokenPoolEntry)
    (ha : a ∈ entries) (hb : b ∈ entries) (hab : a.token = b.token) : a = b :=
  List.inj_on_of_nodup_map hN ha hb hab

theorem lookupEntry_updateEntry_self (entries : List TokenPoolEntry) (tk : String)
    (f : TokenPoolEntry → TokenPoolEntry) (hf : ∀ x, (f x).token = x.token) :
    lookupEntry (updateEntry entries tk f) tk = (lookupEntry entries tk).map f := by
  induction entries with
  | nil => rfl
  | cons a l ih =>
    by_cases hat : a.token = tk
    · simp only [updateEntry, if_pos hat]
      unfold lookupEntry
      rw [List.find?_cons_of_pos _ (by simp [hf a, hat]),
        List.find?_cons_of_pos _ (by simp [hat])]
      rfl
    · simp only [updateEntry, if_neg hat]
      unfold lookupEntry
      rw [List.find?_cons_of_neg _ (by simpa using hat),
        List.find?_cons_of_neg _ (by simpa using hat)]
      unfold lookupEntry at ih
      exact ih

theorem lookupEntry_updateEntry_ne (entries : List TokenPoolEntry) (tk tk' : String)
    (f : TokenPoolEntry → TokenPoolEntry) (h : tk' ≠ tk)
    (hf : ∀ x, (f x).token = x.token) :
    lookupEntry (updateEntry entries tk f) tk' = lookupEntry entries tk' := by
  induction entries with
  | nil => rfl
  | cons a l ih =>
    by_cases hat : a.token = tk
    · have hne : ¬(f a).token = tk' := by
        rw [hf a, hat]
        exact fun hc => h hc.symm
      have hne' : ¬a.token = tk' := by
        rw [hat]
        exact fun hc => h hc.symm
      simp only [updateEntry, if_pos hat]
      unfold lookupEntry
      rw [List.find?_cons_of_neg _ (by simpa using hne),
        List.find?_cons_of_neg _ (by simpa using hne')]
    · simp only [updateEntry, if_neg hat]
      unfold lookupEntry
      unfold lookupEntry at ih
      by_cases hat' : a.token = tk'
      · rw [List.find?_cons_of_pos _ (by simpa using hat'),
          List.find?_cons_of_pos _ (by simpa using hat')]
      · rw [List.find?_cons_of_neg _ (by simpa using hat'),
          List.find?_cons_of_neg _ (by simpa using hat')]
        exact ih

theorem lookupEntry_append (l₁ l₂ : List TokenPoolEntry) (tk : String) :
    lookupEntry (l₁ ++ l₂) tk = (lookupEntry l₁ tk).or (lookupEntry l₂ tk) :=
  List.find?_append

theorem getD_mod_mem {α : Type} (l : List α) (i : Nat) (d : α) (h : l ≠ []) :
    l.getD (i % l.length) d ∈ l := by
  have hlen : i % l.length < l.length :=
    Nat.mod_lt _ (List.length_pos.mpr h)
  rw [List.getD_eq_getElem l d hlen]
  exact List.getElem_mem hlen

/-! ## C5: manual check recovery -/

/-- C5: `syncTokenCheckResult(token, true)` on a pool-known entry (in
particular a previously auto-disabled one) resets `consecutiveFailures` to
0, sets `enabled := true` and `live := true`, and clears `lastError`. -/
theorem syncTokenCheckResult_true_recovers (pool : TokenPool) (tk : String)
    (e : TokenPoolEntry) (now : Nat) (hpe : pool.enabled = true)
    (hl : lookupEntry pool.entries tk = some e) :
    (syncTokenCheckResult pool tk true now).2 = true ∧
    lookupEntry (syncTokenCheckResult pool tk true now).1.entries tk =
      some { e with lastCheckedAt := some now, live := some true,
                    enabled := true, consecutiveFailures := 0, lastError := none } := by
  unfold syncTokenCheckResult
  rw [hpe, if_neg (by simp), hl]
  dsimp only
  constructor
  · rfl
  · rw [lookupEntry_updateEntry_self]
    · rw [hl]
      rfl
    · intro x
      rfl

/-- C5 witness. -/
theorem syncTokenCheckResult_true_recovers_witness :
    (syncTokenCheckResult
      { enabled := true, fetchCreditOnCheck := false, autoDisableEnabled := true,
        autoDisableFailures := 2, pickStrategy := .random,
        entries := [{ token := "w5", region := some .cn, enabled := false,
                      live := some false, lastCheckedAt := some 3,
                      lastError := some "token_not_live", lastCredit := none,
                      consecutiveFailures := 4, allowedModels := none,
                      capabilityTags := none, dynamicCapabilities := none }],
        healthChecking := false, lastHealthCheckAt := none, roundRobinCursor := 0 }
      "w5" true 9).1.entries =
      [{ token := "w5", region := some .cn, enabled := true, live := some true,
         lastCheckedAt := some 9, lastError := none, lastCredit := none,
         consecutiveFailures := 0, allowedModels := none,
         capabilityTags := none, dynamicCapabilities := none }] := by
  have h := syncTokenCheckResult_true_recovers
    { enabled := true, fetchCreditOnCheck := false, autoDisableEnabled := true,
      autoDisableFailures := 2, pickStrategy := .random,
      entries := [{ token := "w5", region := some .cn, enabled := false,
                    live := some false, lastCheckedAt := some 3,
                    lastError := some "token_not_live", lastCredit := none,
                    consecutiveFailures := 4, allowedModels := none,
                    capabilityTags := none, dynamicCapabilities := none }],
      healthChecking := false, lastHealthCheckAt := none, roundRobinCursor := 0 }
    "w5"
    { token := "w5", region := some .cn, enabled := false, live := some false,
      lastCheckedAt := some 3, lastError := some "token_not_live",
      lastCredit := none, consecutiveFailures := 4, allowedModels := none,
      capabilityTags := none, dynamicCapabilities := none }
    9 rfl (by decide)
  revert h
  decide

/-! ## C10: setTokenEnabled effect and frame -/

/-- C10: on a pool-known token, `setTokenEnabled(token, false)` sets
`enabled := false` and forces `live := false`, leaving every other field of
the entry and every other entry untouched; `setTokenEnabled(token, true)`
changes only `enabled`; on an unknown token it returns `false` and leaves
the pool unchanged. -/
theorem setTokenEnabled_spec (pool : TokenPool) (tk : String)
    (hpe : pool.enabled = true) :
    (∀ e, lookupEntry pool.entries tk = some e →
      (setTokenEnabled pool tk false).2 = true ∧
      lookupEntry (setTokenEnabled pool tk false).1.entries tk =
        some { e with enabled := false, live := some false } ∧
      (setTokenEnabled pool tk true).2 = true ∧
      lookupEntry (setTokenEnabled pool tk true).1.entries tk =
        some { e with enabled := true } ∧
      (∀ tk' b, tk' ≠ tk →
        lookupEntry (setTokenEnabled pool tk b).1.entries tk' =
          lookupEntry pool.entries tk')) ∧
    (lookupEntry pool.entries tk = none →
      ∀ b, setTokenEnabled pool tk b = (pool, false)) := by
  constructor
  · intro e hl
    refine ⟨?_, ?_, ?_, ?_, ?_⟩
    · unfold setTokenEnabled
      rw [hpe, if_neg (by simp), hl]
    · unfold setTokenEnabled
      rw [hpe, if_neg (by simp), hl]
      dsimp only
      rw [lookupEntry_updateEntry_self]
      · rw [hl]
        rfl
      · intro x
        rfl
    · unfold setTokenEnabled
      rw [hpe, if_neg (by simp), hl]
    · unfold setTokenEnabled
      rw [hpe, if_neg (by simp), hl]
      dsimp only
      rw [lookupEntry_updateEntry_self]
      · rw [hl]
        rfl
      · intro x
        rfl
    · intro tk' b hne
      unfold setTokenEnabled
      rw [hpe, if_neg (by simp), hl]
      dsimp only
      rw [lookupEntry_updateEntry_ne]
      · exact hne
      · intro x
        rfl
  · intro hl b
    unfold setTokenEnabled
    rw [hpe, if_neg (by simp), hl]

/-- C10 witness. -/
theorem setTokenEnabled_spec_witness :
    lookupEntry (setTokenEnabled
      { enabled := true, fetchCreditOnCheck := false, autoDisableEnabled := true,
        autoDisableFailures := 2, pickStrategy := .random,
        entries := [{ token := "w10", region := some .us, enabled := true,
                      live := some true, lastCheckedAt := some 7,
                      lastError := none, lastCredit := some 5,
                      consecutiveFailures := 1, allowedModels := some ["m1"],
                      capabilityTags := some ["t"], dynamicCapabilities := none },
                    { token := "w10b", region := some .cn, enabled := true,
                      live := none, lastCheckedAt := none, lastError := none,
                      lastCredit := none, consecutiveFailures := 0,
                      allowedModels := none, capabilityTags := none,
                      dynamicCapabilities := none }],
        healthChecking := false, lastHealthCheckAt := none, roundRobinCursor := 0 }
      "w10" false).1.entries "w10" =
      some { token := "w10", region := some .us, enabled := false,
             live := some false, lastCheckedAt := some 7, lastError := none,
             lastCredit := some 5, consecutiveFailures := 1,
             allowedModels := some ["m1"], capabilityTags := some ["t"],
             dynamicCapabilities := none } := by
  have h := (setTokenEnabled_spec
    { enabled := true, fetchCreditOnCheck := false, autoDisableEnabled := true,
      autoDisableFailures := 2, pickStrategy := .random,
      entries := [{ token := "w10", region := some .us, enabled := true,
                    live := some true, lastCheckedAt := some 7,
                    lastError := none, lastCredit := some 5,
                    consecutiveFailures := 1, allowedModels := some ["m1"],
                    capabilityTags := some ["t"], dynamicCapabilities := none },
                  { token := "w10b", region := some .cn, enabled := true,
                    live := none, lastCheckedAt := none, lastError := none,
                    lastCredit := none, consecutiveFailures := 0,
                    allowedModels := none, capabilityTags := none,
                    dynamicCapabilities := none }],
      healthChecking := false, lastHealthCheckAt := none, roundRobinCursor := 0 }
    "w10" rfl).1
    { token := "w10", region := some .us, enabled := true, live := some true,
      lastCheckedAt := some 7, lastError := none, lastCredit := some 5,
      consecutiveFailures := 1, allowedModels := some ["m1"],
      capabilityTags := some ["t"], dynamicCapabilities := none }
    (by decide)
  exact h.2.1

/-! ## The token a raw add input carries -/

/-- The (trimmed) token string a raw `addTokens` input denotes, as
`normalizeAddTokens` computes it; for the obj form this is the trim of its
`token` field. -/
def rawTokenOf : RawTokenInput → String
  | .str s => jsTrim s
  | .obj o => jsTrim o.token

/-- The untrimmed string a caller would pass to `removeTokens` for the same
input: the string itself, or the obj's `token` field. -/
def rawStringOf : RawTokenInput → String
  | .str s => s
  | .obj o => o.token

theorem rawTokenOf_eq_trim (raw : RawTokenInput) :
    rawTokenOf raw = jsTrim (rawStringOf raw) := by
  cases raw <;> rfl

/-! ## C8: adding an already-present token is a no-op -/

/-- C8: `addTokens` on an input whose token is already stored leaves the
entry list — hence the entry count and every field of the existing entry —
exactly as it was; a token string maps to at most one entry. -/
theorem addTokens_existing_token_noop (pool : TokenPool) (raw : RawTokenInput)
    (defaultRegion : Option RegionCode) (e : TokenPoolEntry)
    (hl : lookupEntry pool.entries (rawTokenOf raw) = some e) :
    (addTokens pool [raw] defaultRegion).1.entries = pool.entries := by
  unfold addTokens
  by_cases hpe : pool.enabled = false
  · rw [if_pos hpe]
  · rw [if_neg hpe]
    cases raw with
    | str s =>
      have hl' : lookupEntry pool.entries (jsTrim s) = some e := hl
      unfold normalizeAddTokens
      by_cases hts : jsTrim s = ""
      · rw [if_pos hts]
        rfl
      · rw [if_neg hts]
        cases defaultRegion with
        | none => rfl
        | some r =>
          simp [normalizeAddTokens, bind, Except.bind, pure, Except.pure,
            addTokensLoop, hl']
    | obj o =>
      have hl' : lookupEntry pool.entries (jsTrim o.token) = some e := hl
      unfold normalizeAddTokens
      by_cases hts : jsTrim o.token = ""
      · rw [if_pos hts]
        rfl
      · rw [if_neg hts]
        cases hreg : (match o.region with | some r => some r | none => defaultRegion) with
        | none => rfl
        | some r =>
          simp [normalizeAddTokens, bind, Except.bind, pure, Except.pure,
            addTokensLoop, hl']

/-- C8 witness. -/
theorem addTokens_existing_token_noop_witness :
    (addTokens
      { enabled := true, fetchCreditOnCheck := false, autoDisableEnabled := true,
        autoDisableFailures := 2, pickStrategy := .random,
        entries := [{ token := "w8", region := some .us, enabled := true,
                      live := some true, lastCheckedAt := some 2,
                      lastError := none, lastCredit := none,
                      consecutiveFailures := 0, allowedModels := some ["m1"],
                      capabilityTags := none, dynamicCapabilities := none }],
        healthChecking := false, lastHealthCheckAt := none, roundRobinCursor := 0 }
      [.obj { token := "w8", region := some .cn, enabled := some false,
              allowedModels := some ["zz"], capabilityTags := none }]
      none).1.entries =
    [{ token := "w8", region := some .us, enabled := true, live := some true,
       lastCheckedAt := some 2, lastError := none, lastCredit := none,
       consecutiveFailures := 0, allowedModels := some ["m1"],
       capabilityTags := none, dynamicCapabilities := none }] :=
  addTokens_existing_token_noop
    { enabled := true, fetchCreditOnCheck := false, autoDisableEnabled := true,
      autoDisableFailures := 2, pickStrategy := .random,
      entries := [{ token := "w8", region := some .us, enabled := true,
                    live := some true, lastCheckedAt := some 2,
                    lastError := none, lastCredit := none,
                    consecutiveFailures := 0, allowedModels := some ["m1"],
                    capabilityTags := none, dynamicCapabilities := none }],
      healthChecking := false, lastHealthCheckAt := none, roundRobinCursor := 0 }
    (.obj { token := "w8", region := some .cn, enabled := some false,
            allowedModels := some ["zz"], capabilityTags := none })
    none
    { token := "w8", region := some .us, enabled := true, live := some true,
      lastCheckedAt := some 2, lastError := none, lastCredit := none,
      consecutiveFailures := 0, allowedModels := some ["m1"],
      capabilityTags := none, dynamicCapabilities := none }
    (by decide)

/-! ## C7: add-then-remove and the entry count -/

theorem addTokens_preserves_enabled (pool : TokenPool) (raws : List RawTokenInput)
    (defaultRegion : Option RegionCode) :
    (addTokens pool raws defaultRegion).1.enabled = pool.enabled := by
  unfold addTokens
  split
  · rfl
  · split <;> rfl

theorem eraseEntry_append_single (entries : List TokenPoolEntry)
    (x : TokenPoolEntry) (t : String) (hnone : lookupEntry entries t = none)
    (hx : x.token = t) : eraseEntry (entries ++ [x]) t = entries := by
  unfold eraseEntry
  unfold lookupEntry at hnone
  rw [List.eraseP_append_right [x] (List.find?_eq_none.mp hnone)]
  simp [hx]

/-- C7 counterexample: on a pool already holding the token `"t7"`,
`addTokens` skips the duplicate and `removeTokens` then deletes the
pre-existing entry, so the entry count drops below what it was before the
add. -/
theorem addTokens_removeTokens_count_cex :
    ¬ ((removeTokens
        (addTokens
          { enabled := true, fetchCreditOnCheck := false,
            autoDisableEnabled := true, autoDisableFailures := 2,
            pickStrategy := .random,
            entries := [{ token := "t7", region := some .cn, enabled := true,
                          live := none, lastCheckedAt := none, lastError := none,
                          lastCredit := none, consecutiveFailures := 0,
                          allowedModels := none, capabilityTags := none,
                          dynamicCapabilities := none }],
            healthChecking := false, lastHealthCheckAt := none,
            roundRobinCursor := 0 }
          [.obj { token := "t7", region := some .cn, enabled := none,
                  allowedModels := none, capabilityTags := none }]
          none).1
        ["t7"]).1.entries.length =
      (1 : Nat)) := by
  decide

/-- C7 amended: `addTokens([t])` followed by `removeTokens([t])` restores
the entry count whenever `t` (trimmed) was not already in the pool; when it
was, the add skips the duplicate and the remove deletes the pre-existing
entry, leaving one entry fewer. -/
theorem addTokens_removeTokens_fresh_restores_count (pool : TokenPool)
    (raw : RawTokenInput) (defaultRegion : Option RegionCode)
    (hl : lookupEntry pool.entries (rawTokenOf raw) = none) :
    (removeTokens (addTokens pool [raw] defaultRegion).1
        [rawStringOf raw]).1.entries.length = pool.entries.length := by
  by_cases hpe : pool.enabled = false
  · unfold addTokens
    rw [if_pos hpe]
    unfold removeTokens
    rw [if_pos hpe]
  · unfold removeTokens
    rw [if_neg (by rw [addTokens_preserves_enabled]; exact hpe)]
    simp only [List.map_cons, List.map_nil]
    rw [← rawTokenOf_eq_trim raw]
    by_cases hts : rawTokenOf raw = ""
    · -- blank token: nothing to remove, and the add skipped it too
      rw [hts, List.filter_cons_of_neg (by simp)]
      simp only [List.filter_nil, List.foldl_nil]
      have hadd : (addTokens pool [raw] defaultRegion).1.entries = pool.entries := by
        unfold addTokens
        rw [if_neg hpe]
        cases raw with
        | str s =>
          unfold normalizeAddTokens
          rw [if_pos (by simpa [rawTokenOf] using hts)]
          rfl
        | obj o =>
          unfold normalizeAddTokens
          rw [if_pos (by simpa [rawTokenOf] using hts)]
          rfl
      rw [hadd]
    · rw [List.filter_cons_of_pos (by simpa using hts)]
      simp only [List.filter_nil, List.foldl_cons, List.foldl_nil]
      -- what the add left in the pool: either unchanged, or with one fresh
      -- entry carrying the trimmed token appended at the end
      have hadd : (addTokens pool [raw] defaultRegion).1.entries = pool.entries ∨
          ∃ x : TokenPoolEntry, x.token = rawTokenOf raw ∧
            (addTokens pool [raw] defaultRegion).1.entries = pool.entries ++ [x] := by
        unfold addTokens
        rw [if_neg hpe]
        cases raw with
        | str s =>
          unfold normalizeAddTokens
          rw [if_neg (by simpa [rawTokenOf] using hts)]
          cases defaultRegion with
          | none => exact Or.inl rfl
          | some r =>
            simp only [normalizeAddTokens, bind, Except.bind, pure, Except.pure]
            unfold addTokensLoop
            rw [show jsTrim s = rawTokenOf (.str s) from rfl, hl]
            by_cases hdep : tokenHasDeprecatedRegionMark (rawTokenOf (RawTokenInput.str s)) = true
            · rw [if_neg (by simp), if_pos hdep]
              exact Or.inl rfl
            · rw [if_neg (by simp), if_neg hdep]
              exact Or.inr ⟨_, rfl, rfl⟩
        | obj o =>
          unfold normalizeAddTokens
          rw [if_neg (by simpa [rawTokenOf] using hts)]
          cases hreg : (match o.region with | some r => some r | none => defaultRegion) with
          | none => exact Or.inl rfl
          | some r =>
            simp only [normalizeAddTokens, bind, Except.bind, pure, Except.pure]
            unfold addTokensLoop
            rw [show jsTrim o.token = rawTokenOf (.obj o) from rfl, hl]
            by_cases hdep : tokenHasDeprecatedRegionMark (rawTokenOf (RawTokenInput.obj o)) = true
            · rw [if_neg (by simp), if_pos hdep]
              exact Or.inl rfl
            · rw [if_neg (by simp), if_neg hdep]
              exact Or.inr ⟨_, rfl, rfl⟩
      rcases hadd with hadd | ⟨x, hx, hadd⟩
      · rw [hadd, hl]
        rfl
      · rw [hadd, lookupEntry_append, hl]
        have hlx : lookupEntry [x] (rawTokenOf raw) = some x := by
          unfold lookupEntry
          rw [List.find?_cons_of_pos _ (by simp [hx])]
        rw [hlx, if_pos (by rfl),
          eraseEntry_append_single pool.entries x (rawTokenOf raw) hl hx]

/-- C7 amended, witness. -/
theorem addTokens_removeTokens_fresh_restores_count_witness :
    (removeTokens
      (addTokens
        { enabled := true, fetchCreditOnCheck := false, autoDisableEnabled := true,
          autoDisableFailures := 2, pickStrategy := .random,
          entries := [{ token := "t7", region := some .cn, enabled := true,
                        live := none, lastCheckedAt := none, lastError := none,
                        lastCredit := none, consecutiveFailures := 0,
                        allowedModels := none, capabilityTags := none,
                        dynamicCapabilities := none }],
          healthChecking := false, lastHealthCheckAt := none,
          roundRobinCursor := 0 }
        [.obj { token := "w7", region := some .us, enabled := none,
                allowedModels := none, capabilityTags := none }]
        none).1
      ["w7"]).1.entries.length = 1 :=
  addTokens_removeTokens_fresh_restores_count
    { enabled := true, fetchCreditOnCheck := false, autoDisableEnabled := true,
      autoDisableFailures := 2, pickStrategy := .random,
      entries := [{ token := "t7", region := some .cn, enabled := true,
                    live := none, lastCheckedAt := none, lastError := none,
                    lastCredit := none, consecutiveFailures := 0,
                    allowedModels := none, capabilityTags := none,
                    dynamicCapabilities := none }],
      healthChecking := false, lastHealthCheckAt := none, roundRobinCursor := 0 }
    (.obj { token := "w7", region := some .us, enabled := none,
            allowedModels := none, capabilityTags := none })
    none
    (by decide)

/-! ## Evaluation of `pickTokenForRequest` on a one-entry pool, no
authorization, no X-Region -/

theorem pickTokenForRequest_single_match (pool : TokenPool) (e : TokenPoolEntry)
    (m : String) (tt : TokenTaskType) (i : Nat) (hent : pool.entries = [e])
    (hpref : (buildCandidateFromPoolEntry e).prefixedToken = false)
    (hmatch : matchesModelAndCapabilities (buildCandidateFromPoolEntry e) m tt [] = true) :
    (pickTokenForRequest pool none m tt [] none i).1 =
      { token := some e.token, region := e.region, error := none, reason := none } := by
  have hrs : (buildCandidateFromPoolEntry e).region.isSome = true := by
    unfold matchesModelAndCapabilities at hmatch
    simp only [Bool.and_eq_true] at hmatch
    exact hmatch.1.1.2
  obtain ⟨c, hc⟩ : ∃ c, buildCandidateFromPoolEntry e = c := ⟨_, rfl⟩
  have htok : c.token = e.token := by rw [← hc]; rfl
  have hreg : c.region = e.region := by rw [← hc]; rfl
  rw [hc] at hpref hmatch hrs
  have hers : e.region.isSome = true := by rw [← hreg]; exact hrs
  have hrn : ¬(e.region = none) := by
    intro h
    rw [h] at hers
    simp at hers
  cases hstrat : pool.pickStrategy <;>
    simp [pickTokenForRequest, parseAuthorizationTokens, xRegionRejected,
      parseRegionCode, candidatesFor, hent, hc, List.find?_cons, hpref, hrs,
      List.filter_cons, regionLockOk, hmatch, pickCandidate, hstrat,
      Nat.mod_one, List.getD, htok, hreg, hers, hrn]

theorem pickTokenForRequest_single_nomatch (pool : TokenPool) (e : TokenPoolEntry)
    (m : String) (tt : TokenTaskType) (i : Nat) (hent : pool.entries = [e])
    (hpref : (buildCandidateFromPoolEntry e).prefixedToken = false)
    (hrs : (buildCandidateFromPoolEntry e).region.isSome = true)
    (hmatch : matchesModelAndCapabilities (buildCandidateFromPoolEntry e) m tt [] = false) :
    (pickTokenForRequest pool none m tt [] none i).1.error = some .no_matching_token ∧
    (pickTokenForRequest pool none m tt [] none i).1.token = none := by
  obtain ⟨c, hc⟩ : ∃ c, buildCandidateFromPoolEntry e = c := ⟨_, rfl⟩
  have hreg : c.region = e.region := by rw [← hc]; rfl
  rw [hc] at hpref hmatch hrs
  have hers : e.region.isSome = true := by rw [← hreg]; exact hrs
  have hrn : ¬(e.region = none) := by
    intro h
    rw [h] at hers
    simp at hers
  constructor <;>
    simp [pickTokenForRequest, parseAuthorizationTokens, xRegionRejected,
      parseRegionCode, candidatesFor, hent, hc, List.find?_cons, hpref, hrs,
      List.filter_cons, regionLockOk, hmatch, hers, hrn]

/-! ## C4: a static allow-list is authoritative -/

/-- C4: on a pool with exactly one entry (`region = us`, enabled, live,
`allowedModels = ["m1"]`), a request for `"m2"` yields `no_matching_token`
and a request for `"m1"` yields that entry's token with region `us` and no
error; and whenever `allowedModels` is non-empty,
`matchesModelAndCapabilities` equals a formula in which the dynamic model
lists do not occur. -/
theorem allowedModels_authoritative (pool : TokenPool) (e : TokenPoolEntry)
    (tt : TokenTaskType) (i : Nat) (hent : pool.entries = [e])
    (hr : e.region = some .us) (hen : e.enabled = true) (hlv : e.live = some true)
    (ham : e.allowedModels = some ["m1"]) (hpref : hasLegacyPrefix e.token = false) :
    ((pickTokenForRequest pool none "m2" tt [] none i).1.error =
        some .no_matching_token ∧
      (pickTokenForRequest pool none "m2" tt [] none i).1.token = none) ∧
    ((pickTokenForRequest pool none "m1" tt [] none i).1.token = some e.token ∧
      (pickTokenForRequest pool none "m1" tt [] none i).1.region = some .us ∧
      (pickTokenForRequest pool none "m1" tt [] none i).1.error = none) ∧
    (∀ (c : CandidateToken) (m : String) (tt' : TokenTaskType) (tags : List String),
      (c.allowedModels.getD []).length ≠ 0 →
      matchesModelAndCapabilities c m tt' tags =
        (c.enabled && c.live && c.region.isSome
          && (c.allowedModels.getD []).contains m && capabilityTagsOk c tags)) := by
  have hprefc : (buildCandidateFromPoolEntry e).prefixedToken = false := by
    simpa [buildCandidateFromPoolEntry] using hpref
  have hrs : (buildCandidateFromPoolEntry e).region.isSome = true := by
    simp [buildCandidateFromPoolEntry, hr]
  refine ⟨?_, ?_, ?_⟩
  · refine pickTokenForRequest_single_nomatch pool e "m2" tt i hent hprefc hrs ?_
    simp [matchesModelAndCapabilities, buildCandidateFromPoolEntry, ham]
  · have h := pickTokenForRequest_single_match pool e "m1" tt i hent hprefc ?_
    · rw [h]
      exact ⟨rfl, by rw [hr], rfl⟩
    · simp [matchesModelAndCapabilities, buildCandidateFromPoolEntry, ham, hen,
        hlv, hr, capabilityTagsOk]
  · intro c m tt' tags hne
    unfold matchesModelAndCapabilities
    rw [if_pos hne]

/-- C4 witness. -/
theorem allowedModels_authoritative_witness :
    (pickTokenForRequest
      { enabled := true, fetchCreditOnCheck := false, autoDisableEnabled := true,
        autoDisableFailures := 2, pickStrategy := .random,
        entries := [{ token := "w4", region := some .us, enabled := true,
                      live := some true, lastCheckedAt := none, lastError := none,
                      lastCredit := none, consecutiveFailures := 0,
                      allowedModels := some ["m1"], capabilityTags := none,
                      dynamicCapabilities :=
                        some { imageModels := some ["m2"], videoModels := some ["m2"],
                               capabilityTags := none, updatedAt := some 1 } }],
        healthChecking := false, lastHealthCheckAt := none, roundRobinCursor := 0 }
      none "m2" .image [] none 0).1.error = some .no_matching_token :=
  (allowedModels_authoritative
    { enabled := true, fetchCreditOnCheck := false, autoDisableEnabled := true,
      autoDisableFailures := 2, pickStrategy := .random,
      entries := [{ token := "w4", region := some .us, enabled := true,
                    live := some true, lastCheckedAt := none, lastError := none,
                    lastCredit := none, consecutiveFailures := 0,
                    allowedModels := some ["m1"], capabilityTags := none,
                    dynamicCapabilities :=
                      some { imageModels := some ["m2"], videoModels := some ["m2"],
                             capabilityTags := none, updatedAt := some 1 } }],
      healthChecking := false, lastHealthCheckAt := none, roundRobinCursor := 0 }
    { token := "w4", region := some .us, enabled := true, live := some true,
      lastCheckedAt := none, lastError := none, lastCredit := none,
      consecutiveFailures := 0, allowedModels := some ["m1"],
      capabilityTags := none,
      dynamicCapabilities :=
        some { imageModels := some ["m2"], videoModels := some ["m2"],
               capabilityTags := none, updatedAt := some 1 } }
    .image 0 rfl rfl rfl rfl rfl (by decide)).1.1

/-! ## C9: an entry that was never health-checked counts as live -/

/-- C9: an enabled entry whose `live` is `undefined` is treated as live by
both selection paths: `getAllTokens` keeps it (the filter drops only
`live === false`), its request candidate gets `live = true`, and on a
one-entry pool a freshly added entry with a region is actually returned by
both `pickToken` and `pickTokenForRequest`. -/
theorem undefined_live_is_selectable (pool : TokenPool) (e : TokenPoolEntry)
    (r : RegionCode) (m : String) (tt : TokenTaskType) (i : Nat)
    (hent : pool.entries = [e]) (hpe : pool.enabled = true)
    (hen : e.enabled = true) (hlv : e.live = none) (hr : e.region = some r)
    (ham : e.allowedModels = none) (hdyn : e.dynamicCapabilities = none)
    (hpref : hasLegacyPrefix e.token = false) :
    (buildCandidateFromPoolEntry e).live = true ∧
    getAllTokens pool true true = [e.token] ∧
    (pickToken pool i).1 = some e.token ∧
    (pickTokenForRequest pool none m tt [] none i).1.token = some e.token ∧
    (pickTokenForRequest pool none m tt [] none i).1.error = none := by
  have hlive : (buildCandidateFromPoolEntry e).live = true := by
    simp [buildCandidateFromPoolEntry, hlv]
  have htoks : getAllTokens pool true true = [e.token] := by
    unfold getAllTokens
    rw [hent, List.filter_cons_of_pos (by simp [hen, hlv]), List.filter_nil]
    rfl
  have hpick : (pickTokenForRequest pool none m tt [] none i).1 =
      { token := some e.token, region := e.region, error := none, reason := none } := by
    refine pickTokenForRequest_single_match pool e m tt i hent
      (by simpa [buildCandidateFromPoolEntry] using hpref) ?_
    cases tt <;>
      simp [matchesModelAndCapabilities, buildCandidateFromPoolEntry, ham, hen,
        hlv, hr, hdyn, dynamicModelsFor, capabilityTagsOk]
  refine ⟨hlive, htoks, ?_, by rw [hpick], by rw [hpick]⟩
  unfold pickToken
  rw [hpe, if_neg (by simp), htoks]
  have h1 : ¬(([e.token] : List String).length = 0) := by simp
  rw [if_neg h1]
  cases hstrat : pool.pickStrategy <;> simp [hstrat, Nat.mod_one, List.getD]

/-- C9 witness. -/
theorem undefined_live_is_selectable_witness :
    (pickToken
      { enabled := true, fetchCreditOnCheck := false, autoDisableEnabled := true,
        autoDisableFailures := 2, pickStrategy := .round_robin,
        entries := [{ token := "w9", region := some .jp, enabled := true,
                      live := none, lastCheckedAt := none, lastError := none,
                      lastCredit := none, consecutiveFailures := 0,
                      allowedModels := none, capabilityTags := none,
                      dynamicCapabilities := none }],
        healthChecking := false, lastHealthCheckAt := none, roundRobinCursor := 5 }
      0).1 = some "w9" :=
  (undefined_live_is_selectable
    { enabled := true, fetchCreditOnCheck := false, autoDisableEnabled := true,
      autoDisableFailures := 2, pickStrategy := .round_robin,
      entries := [{ token := "w9", region := some .jp, enabled := true,
                    live := none, lastCheckedAt := none, lastError := none,
                    lastCredit := none, consecutiveFailures := 0,
                    allowedModels := none, capabilityTags := none,
                    dynamicCapabilities := none }],
      healthChecking := false, lastHealthCheckAt := none, roundRobinCursor := 5 }
    { token := "w9", region := some .jp, enabled := true, live := none,
      lastCheckedAt := none, lastError := none, lastCredit := none,
      consecutiveFailures := 0, allowedModels := none, capabilityTags := none,
      dynamicCapabilities := none }
    .jp "m" .image 0 rfl rfl rfl rfl rfl rfl rfl (by decide)).2.2.1

/-- A pool with default configuration, used to instantiate theorems on
concrete inputs. -/
def mkPool (strategy : PickStrategy) (cursor : Nat)
    (entries : List TokenPoolEntry) : TokenPool :=
  { enabled := true, fetchCreditOnCheck := false, autoDisableEnabled := true,
    autoDisableFailures := 2, pickStrategy := strategy, entries := entries,
    healthChecking := false, lastHealthCheckAt := none,
    roundRobinCursor := cursor }

/-! ## C6: round robin visits a fixed 3-candidate list exactly once each -/

/-- C6: under `round_robin`, three consecutive `pickCandidate` calls over
the same fixed 3-candidate matched list (threaded through the shared
cursor, with no other pick in between) return a permutation of the list:
each candidate exactly once, from any starting cursor. -/
theorem roundRobin_three_picks_each_once (pool : TokenPool)
    (c0 c1 c2 : CandidateToken) (i1 i2 i3 : Nat)
    (hs : pool.pickStrategy = .round_robin) :
    [(pickCandidate pool [c0, c1, c2] i1).1,
     (pickCandidate (pickCandidate pool [c0, c1, c2] i1).2 [c0, c1, c2] i2).1,
     (pickCandidate (pickCandidate (pickCandidate pool [c0, c1, c2] i1).2
        [c0, c1, c2] i2).2 [c0, c1, c2] i3).1].Perm [c0, c1, c2] := by
  unfold pickCandidate
  rw [hs]
  dsimp only [List.length_cons, List.length_nil]
  rcases (by omega : pool.roundRobinCursor % 3 = 0 ∨ pool.roundRobinCursor % 3 = 1
      ∨ pool.roundRobinCursor % 3 = 2) with h | h | h
  · have h1 : (pool.roundRobinCursor + 1) % 3 = 1 := by omega
    have h2 : (pool.roundRobinCursor + 1 + 1) % 3 = 2 := by omega
    rw [h, h1, h2]
    dsimp [List.getD]
    exact List.Perm.refl _
  · have h1 : (pool.roundRobinCursor + 1) % 3 = 2 := by omega
    have h2 : (pool.roundRobinCursor + 1 + 1) % 3 = 0 := by omega
    rw [h, h1, h2]
    dsimp [List.getD]
    exact (List.perm_append_comm : ([c1, c2] ++ [c0]).Perm ([c0] ++ [c1, c2]))
  · have h1 : (pool.roundRobinCursor + 1) % 3 = 0 := by omega
    have h2 : (pool.roundRobinCursor + 1 + 1) % 3 = 1 := by omega
    rw [h, h1, h2]
    dsimp [List.getD]
    exact (List.perm_append_comm : ([c2] ++ [c0, c1]).Perm ([c0, c1] ++ [c2]))

/-- C6 witness. -/
theorem roundRobin_three_picks_each_once_witness :
    [(pickCandidate (mkPool .round_robin 7 [])
        [defaultCandidate, { defaultCandidate with token := "b" },
         { defaultCandidate with token := "c" }] 0).1,
     (pickCandidate (pickCandidate (mkPool .round_robin 7 [])
        [defaultCandidate, { defaultCandidate with token := "b" },
         { defaultCandidate with token := "c" }] 0).2
        [defaultCandidate, { defaultCandidate with token := "b" },
         { defaultCandidate with token := "c" }] 0).1,
     (pickCandidate (pickCandidate (pickCandidate (mkPool .round_robin 7 [])
        [defaultCandidate, { defaultCandidate with token := "b" },
         { defaultCandidate with token := "c" }] 0).2
        [defaultCandidate, { defaultCandidate with token := "b" },
         { defaultCandidate with token := "c" }] 0).2
        [defaultCandidate, { defaultCandidate with token := "b" },
         { defaultCandidate with token := "c" }] 0).1].Perm
      [defaultCandidate, { defaultCandidate with token := "b" },
       { defaultCandidate with token := "c" }] :=
  roundRobin_three_picks_each_once (mkPool .round_robin 7 [])
    defaultCandidate { defaultCandidate with token := "b" }
    { defaultCandidate with token := "c" } 0 0 0 rfl

/-! ## C1: legacy region-prefixed candidates -/

/-- C1 counterexample: a candidate token starting with `cn-` does not match
`hasLegacyPrefix` (which tests only `us- hk- jp- sg-`), so
`pickTokenForRequest` does not return `prefixed_token_not_supported` for
it: the request succeeds with that very token. -/
theorem cn_candidate_not_rejected_cex :
    hasLegacyPrefix "cn-sessionid-123" = false ∧
    (pickTokenForRequest (mkPool .random 0 []) (some "Bearer cn-sessionid-123")
        "m" .image [] (some "us") 0).1.error = none ∧
    (pickTokenForRequest (mkPool .random 0 []) (some "Bearer cn-sessionid-123")
        "m" .image [] (some "us") 0).1.token = some "cn-sessionid-123" := by
  decide

/-- C1 amended: if any candidate carries the legacy region mark that
`hasLegacyPrefix` tests (`us- hk- jp- sg-`, case-insensitive on the trimmed
token), `pickTokenForRequest` answers `prefixed_token_not_supported`, even
when other candidates would succeed; a `cn-` token does not carry that mark
(see the counterexample). -/
theorem legacy_mark_candidate_forces_error (pool : TokenPool)
    (authorization : Option String) (m : String) (tt : TokenTaskType)
    (tags : List String) (xr : Option String) (i : Nat)
    (authTokens : List String)
    (hx : xRegionRejected xr = false)
    (hp : parseAuthorizationTokens authorization = (authTokens, none))
    (c : CandidateToken)
    (hc : c ∈ candidatesFor pool authTokens (parseRegionCode xr))
    (hpr : c.prefixedToken = true) :
    (pickTokenForRequest pool authorization m tt tags xr i).1.error =
      some .prefixed_token_not_supported := by
  unfold pickTokenForRequest
  have hx' : ¬(xRegionRejected xr = true) := by simp [hx]
  rw [if_neg hx', hp]
  dsimp only
  have hne : ¬((candidatesFor pool authTokens (parseRegionCode xr)).length = 0) := by
    intro h0
    rw [List.length_eq_zero] at h0
    rw [h0] at hc
    cases hc
  rw [if_neg hne]
  obtain ⟨pc, hfind⟩ : ∃ pc, (candidatesFor pool authTokens
      (parseRegionCode xr)).find? (fun item => item.prefixedToken) = some pc :=
    Option.isSome_iff_exists.mp (List.find?_isSome.mpr ⟨c, hc, hpr⟩)
  rw [hfind]

/-- C1 amended, witness: a `us-` candidate forces the error even though
another candidate (pool-selectable, fully matching) exists. -/
theorem legacy_mark_candidate_forces_error_witness :
    (pickTokenForRequest (mkPool .random 0 [])
        (some "Bearer good-token,us-legacy") "m" .image [] (some "us")
        0).1.error = some .prefixed_token_not_supported :=
  legacy_mark_candidate_forces_error (mkPool .random 0 [])
    (some "Bearer good-token,us-legacy") "m" .image [] (some "us") 0
    ["good-token", "us-legacy"] rfl (by decide)
    (buildCandidateFromAuthToken (mkPool .random 0 []) "us-legacy" (some .us))
    (by decide) (by decide)

/-! ## C3: disabled entries are excluded from both selection paths -/

theorem pickCandidate_mem (pool : TokenPool) (candidates : List CandidateToken)
    (i : Nat) (h : candidates ≠ []) :
    (pickCandidate pool candidates i).1 ∈ candidates := by
  unfold pickCandidate
  cases hstrat : pool.pickStrategy
  · dsimp only
    exact getD_mod_mem candidates i defaultCandidate h
  · dsimp only
    exact getD_mod_mem candidates pool.roundRobinCursor defaultCandidate h

theorem pickCandidate_entries (pool : TokenPool) (candidates : List CandidateToken)
    (i : Nat) : (pickCandidate pool candidates i).2.entries = pool.entries := by
  unfold pickCandidate
  cases hstrat : pool.pickStrategy <;> rfl

theorem pickTokenForRequest_entries (pool : TokenPool)
    (authorization : Option String) (m : String) (tt : TokenTaskType)
    (tags : List String) (xr : Option String) (i : Nat) :
    (pickTokenForRequest pool authorization m tt tags xr i).2.entries =
      pool.entries := by
  unfold pickTokenForRequest
  split
  · rfl
  · split
    · rfl
    · dsimp only
      split
      · rfl
      · split
        · rfl
        · split
          · rfl
          · split
            · rfl
            · exact pickCandidate_entries pool _ i

theorem pickToken_entries (pool : TokenPool) (i : Nat) :
    (pickToken pool i).2.entries = pool.entries := by
  unfold pickToken
  split
  · rfl
  · dsimp only
    split
    · rfl
    · split <;> rfl

theorem pickToken_mem (pool : TokenPool) (i : Nat) (t : String)
    (h : (pickToken pool i).1 = some t) : t ∈ getAllTokens pool true true := by
  unfold pickToken at h
  split at h
  · simp at h
  · dsimp only at h
    split at h
    · simp at h
    · rename_i hlen
      split at h
      · simp only [Option.some.injEq] at h
        rw [← h]
        exact getD_mod_mem _ _ _ (fun hnil => hlen (by rw [hnil]; rfl))
      · simp only [Option.some.injEq] at h
        rw [← h]
        exact getD_mod_mem _ _ _ (fun hnil => hlen (by rw [hnil]; rfl))

theorem pickTokenForRequest_token_spec (pool : TokenPool)
    (authorization : Option String) (m : String) (tt : TokenTaskType)
    (tags : List String) (xr : Option String) (i : Nat) (tok : String)
    (h : (pickTokenForRequest pool authorization m tt tags xr i).1.token = some tok) :
    ∃ c ∈ candidatesFor pool (parseAuthorizationTokens authorization).1
        (parseRegionCode xr),
      c.token = tok ∧ matchesModelAndCapabilities c m tt tags = true := by
  unfold pickTokenForRequest at h
  split at h
  · simp at h
  · split at h
    · simp at h
    · rename_i authTokens heq
      dsimp only at h
      split at h
      · simp at h
      · rename_i hlen0
        split at h
        · simp at h
        · rename_i hfind
          split at h
          · simp at h
          · rename_i hrr0
            split at h
            · simp at h
            · rename_i hm0
              simp only [Option.some.injEq] at h
              have hne : _ ≠ ([] : List CandidateToken) :=
                fun hnil => hm0 (List.length_eq_zero.mpr hnil)
              have hmm := pickCandidate_mem pool _ i hne
              have h1 := List.mem_filter.mp hmm
              have h2 := List.mem_filter.mp h1.1
              have h3 := List.mem_filter.mp h2.1
              refine ⟨(pickCandidate pool _ i).1, ?_, h, by simpa using h1.2⟩
              rw [heq]
              exact h3.1

/-- C3: an entry with `enabled = false` is excluded from both selection
paths — `pickToken` never returns its token and `pickTokenForRequest` never
selects it, even when the caller names that exact token in the
Authorization header (pool-known tokens consult the stored `enabled`
flag) — while neither path removes anything from the pool. -/
theorem disabled_entry_never_selected (pool : TokenPool) (e : TokenPoolEntry)
    (hN : (pool.entries.map (fun x => x.token)).Nodup)
    (he : e ∈ pool.entries) (hd : e.enabled = false) :
    (∀ i, (pickToken pool i).1 ≠ some e.token) ∧
    (∀ authorization m tt tags xr i,
      (pickTokenForRequest pool authorization m tt tags xr i).1.token ≠
        some e.token) ∧
    (∀ authorization m tt tags xr i,
      (pickTokenForRequest pool authorization m tt tags xr i).2.entries =
        pool.entries) ∧
    (∀ i, (pickToken pool i).2.entries = pool.entries) := by
  refine ⟨?_, ?_, fun a m tt tags xr i => pickTokenForRequest_entries pool a m tt tags xr i,
    fun i => pickToken_entries pool i⟩
  · intro i hcontra
    have hmem := pickToken_mem pool i e.token hcontra
    unfold getAllTokens at hmem
    obtain ⟨x, hx, hxt⟩ := List.mem_map.mp hmem
    have hxf := List.mem_filter.mp hx
    have hxe : x.enabled = true := by
      have hb := hxf.2
      simp only [Bool.not_true, Bool.false_or, Bool.and_eq_true] at hb
      exact hb.1
    have hxeq : x = e := token_inj_of_nodup pool.entries hN x e hxf.1 he hxt
    rw [hxeq, hd] at hxe
    exact Bool.noConfusion hxe
  · intro a m tt tags xr i hcontra
    obtain ⟨c, hcmem, hct, hcm⟩ :=
      pickTokenForRequest_token_spec pool a m tt tags xr i e.token hcontra
    have hce : c.enabled = true := by
      unfold matchesModelAndCapabilities at hcm
      simp only [Bool.and_eq_true] at hcm
      exact hcm.1.1.1.1
    unfold candidatesFor at hcmem
    by_cases hlen : 0 < (parseAuthorizationTokens a).1.length
    · rw [if_pos hlen] at hcmem
      obtain ⟨t, _, hbc⟩ := List.mem_map.mp hcmem
      unfold buildCandidateFromAuthToken at hbc
      cases hle : lookupEntry pool.entries t with
      | some entry =>
        rw [hle] at hbc
        have hctok : entry.token = e.token := by rw [← hct, ← hbc]; rfl
        have hentm : entry ∈ pool.entries := mem_of_lookupEntry _ _ _ hle
        have hee : entry = e :=
          token_inj_of_nodup pool.entries hN entry e hentm he hctok
        have hcen : c.enabled = entry.enabled := by rw [← hbc]; rfl
        rw [hee, hd] at hcen
        rw [hcen] at hce
        exact Bool.noConfusion hce
      | none =>
        rw [hle] at hbc
        have hctok : t = e.token := by rw [← hct, ← hbc]
        rw [hctok] at hle
        have hsm := lookupEntry_isSome_of_mem pool.entries e he
        rw [hle] at hsm
        exact Bool.noConfusion hsm
    · rw [if_neg hlen] at hcmem
      obtain ⟨entry, hentm, hbc⟩ := List.mem_map.mp hcmem
      have hctok : entry.token = e.token := by rw [← hct, ← hbc]; rfl
      have hee : entry = e :=
        token_inj_of_nodup pool.entries hN entry e hentm he hctok
      have hcen : c.enabled = entry.enabled := by rw [← hbc]; rfl
      rw [hee, hd] at hcen
      rw [hcen] at hce
      exact Bool.noConfusion hce

/-- C3 witness: a disabled entry is not selected even when named directly
in the Authorization header. -/
theorem disabled_entry_never_selected_witness :
    (pickToken (mkPool .random 0
      [{ token := "d3", region := some .us, enabled := false, live := some true,
         lastCheckedAt := none, lastError := none, lastCredit := none,
         consecutiveFailures := 0, allowedModels := none, capabilityTags := none,
         dynamicCapabilities := none }]) 0).1 ≠ some "d3" ∧
    (pickTokenForRequest (mkPool .random 0
      [{ token := "d3", region := some .us, enabled := false, live := some true,
         lastCheckedAt := none, lastError := none, lastCredit := none,
         consecutiveFailures := 0, allowedModels := none, capabilityTags := none,
         dynamicCapabilities := none }]) (some "Bearer d3") "m" .image []
      none 0).1.token ≠ some "d3" :=
  have h := disabled_entry_never_selected (mkPool .random 0
    [{ token := "d3", region := some .us, enabled := false, live := some true,
       lastCheckedAt := none, lastError := none, lastCredit := none,
       consecutiveFailures := 0, allowedModels := none, capabilityTags := none,
       dynamicCapabilities := none }])
    { token := "d3", region := some .us, enabled := false, live := some true,
      lastCheckedAt := none, lastError := none, lastCredit := none,
      consecutiveFailures := 0, allowedModels := none, capabilityTags := none,
      dynamicCapabilities := none }
    (by decide) (by decide) rfl
  ⟨h.1 0, h.2.1 (some "Bearer d3") "m" .image [] none 0⟩

/-! ## C2: one health-check pass -/

theorem refreshDynamicCapabilitiesIfNeeded_token (collab : HealthCollaborators)
    (now : Nat) (item : TokenPoolEntry) (region : RegionCode) :
    (refreshDynamicCapabilitiesIfNeeded collab now item region).token = item.token := by
  unfold refreshDynamicCapabilitiesIfNeeded
  dsimp only
  split
  · rfl
  · split <;> rfl

theorem healthCheckOutcomeUpdate_token (pool : TokenPool)
    (collab : HealthCollaborators) (now : Nat) (region : RegionCode)
    (e : TokenPoolEntry) :
    (healthCheckOutcomeUpdate pool collab now region e).token = e.token := by
  unfold healthCheckOutcomeUpdate
  dsimp only
  split
  · split
    · split <;> simp [refreshDynamicCapabilitiesIfNeeded_token]
    · simp [refreshDynamicCapabilitiesIfNeeded_token]
  · rfl
  · rfl

theorem autoDisableUpdate_token (pool : TokenPool) (e : TokenPoolEntry) :
    (autoDisableUpdate pool e).token = e.token := by
  unfold autoDisableUpdate
  split <;> rfl

theorem healthCheckStep_lookup_ne (pool : TokenPool) (collab : HealthCollaborators)
    (now : Nat) (acc : List TokenPoolEntry × HealthStats) (t tk : String)
    (h : tk ≠ t) :
    lookupEntry (healthCheckStep pool collab now acc t).1 tk =
      lookupEntry acc.1 tk := by
  obtain ⟨entries, stats⟩ := acc
  unfold healthCheckStep
  dsimp only
  cases hf : lookupEntry entries t with
  | none => rfl
  | some current =>
    dsimp only
    split
    · rfl
    · split
      · exact lookupEntry_updateEntry_ne entries t tk _ h (fun x => rfl)
      · exact lookupEntry_updateEntry_ne entries t tk _ h
          (fun x => by rw [autoDisableUpdate_token, healthCheckOutcomeUpdate_token])

theorem foldl_healthCheckStep_lookup (pool : TokenPool)
    (collab : HealthCollaborators) (now : Nat) (toks : List String)
    (acc : List TokenPoolEntry × HealthStats) (tk : String) (h : tk ∉ toks) :
    lookupEntry ((toks.foldl (healthCheckStep pool collab now) acc)).1 tk =
      lookupEntry acc.1 tk := by
  induction toks generalizing acc with
  | nil => rfl
  | cons t rest ih =>
    rw [List.foldl_cons]
    have h1 : tk ≠ t := fun hc => h (hc ▸ List.mem_cons_self t rest)
    have h2 : tk ∉ rest := fun hc => h (List.mem_cons_of_mem t hc)
    rw [ih _ h2, healthCheckStep_lookup_ne pool collab now acc t tk h1]

theorem healthCheckStep_at_found (pool : TokenPool) (collab : HealthCollaborators)
    (now : Nat) (acc : List TokenPoolEntry × HealthStats) (tk : String)
    (e : TokenPoolEntry) (hf : lookupEntry acc.1 tk = some e)
    (hen : e.enabled = true) :
    (healthCheckStep pool collab now acc tk).1 =
      match e.region with
      | none => updateEntry acc.1 tk missingRegionUpdate
      | some region => updateEntry acc.1 tk (fun x =>
          autoDisableUpdate pool (healthCheckOutcomeUpdate pool collab now region x)) := by
  obtain ⟨entries, stats⟩ := acc
  dsimp only at hf ⊢
  unfold healthCheckStep
  dsimp only
  rw [hf]
  dsimp only
  rw [if_neg (by rw [hen]; simp)]
  cases e.region <;> rfl

/-- The liveness probe outcomes that count as a failure in `runHealthCheck`
(the `isLive == false` result and the thrown exception). -/
def isFailureOutcome : LiveOutcome → Bool
  | .ok live => !live
  | .err _ => true

theorem healthCheckOutcomeUpdate_failure (pool : TokenPool)
    (collab : HealthCollaborators) (now : Nat) (region : RegionCode)
    (e : TokenPoolEntry)
    (hfail : isFailureOutcome (collab.getTokenLiveStatus e.token region) = true) :
    (healthCheckOutcomeUpdate pool collab now region e).consecutiveFailures =
      e.consecutiveFailures + 1 := by
  unfold healthCheckOutcomeUpdate
  dsimp only
  cases houtcome : collab.getTokenLiveStatus e.token region with
  | ok b =>
    cases b
    · rfl
    · rw [houtcome] at hfail
      simp [isFailureOutcome] at hfail
  | err msg => rfl

/-- C2 amended: in every `runHealthCheck` pass, (a) each enabled entry with
no assigned region is marked `live = false`, `lastError = "missing_region"`
with `consecutiveFailures` incremented and nothing else changed — in
particular it keeps `enabled = true`, because the `continue` skips the
auto-disable step for such entries, and the result does not depend on the
upstream collaborators; and (b) each enabled entry with a region whose
liveness probe fails, reaching the threshold, ends the pass auto-disabled:
`enabled = false` and `live = false` (when auto-disable is on). -/
theorem runHealthCheck_missing_region_and_threshold (pool : TokenPool)
    (collab : HealthCollaborators) (now : Nat) (e : TokenPoolEntry)
    (hN : (pool.entries.map (fun x => x.token)).Nodup)
    (hpe : pool.enabled = true) (hhc : pool.healthChecking = false)
    (he : e ∈ pool.entries) (hee : e.enabled = true) :
    (e.region = none →
      lookupEntry (runHealthCheck pool collab now).1.entries e.token =
        some { e with live := some false, lastError := some "missing_region",
                      consecutiveFailures := e.consecutiveFailures + 1 }) ∧
    (∀ r, e.region = some r →
      isFailureOutcome (collab.getTokenLiveStatus e.token r) = true →
      pool.autoDisableEnabled = true →
      pool.autoDisableFailures ≤ e.consecutiveFailures + 1 →
      ∃ e', lookupEntry (runHealthCheck pool collab now).1.entries e.token =
          some e' ∧ e'.enabled = false ∧ e'.live = some false) := by
  have hrun : (runHealthCheck pool collab now).1.entries =
      (((pool.entries.filter (fun item => item.enabled)).map
        (fun item => item.token)).foldl (healthCheckStep pool collab now)
        (pool.entries, ⟨0, 0, 0, 0⟩)).1 := by
    unfold runHealthCheck
    rw [hpe, hhc]
    rw [if_neg (by simp), if_neg (by simp)]
  have hsnap_mem : e.token ∈ (pool.entries.filter
      (fun item => item.enabled)).map (fun item => item.token) :=
    List.mem_map_of_mem _ (List.mem_filter.mpr ⟨he, hee⟩)
  have hsnap_nodup : ((pool.entries.filter (fun item => item.enabled)).map
      (fun item => item.token)).Nodup :=
    List.Nodup.sublist ((List.filter_sublist pool.entries).map (fun x => x.token)) hN
  obtain ⟨l1, l2, hsplit⟩ := List.append_of_mem hsnap_mem
  rw [hsplit] at hsnap_nodup
  rw [List.nodup_append] at hsnap_nodup
  have hl1 : e.token ∉ l1 :=
    fun hmem => hsnap_nodup.2.2 hmem (List.mem_cons_self _ _)
  have hl2 : e.token ∉ l2 := (List.nodup_cons.mp hsnap_nodup.2.1).1
  have hle : lookupEntry pool.entries e.token = some e :=
    lookupEntry_of_mem_nodup pool.entries hN e he
  have hacc1 : lookupEntry ((l1.foldl (healthCheckStep pool collab now)
      (pool.entries, ⟨0, 0, 0, 0⟩)).1) e.token = some e := by
    rw [foldl_healthCheckStep_lookup pool collab now l1 _ e.token hl1]
    exact hle
  constructor
  · intro hregion
    rw [hrun, hsplit, List.foldl_append, List.foldl_cons]
    rw [foldl_healthCheckStep_lookup pool collab now l2 _ e.token hl2]
    rw [healthCheckStep_at_found pool collab now _ e.token e hacc1 hee, hregion]
    dsimp only
    rw [lookupEntry_updateEntry_self]
    · rw [hacc1]
      simp [missingRegionUpdate, hregion]
    · intro x
      rfl
  · intro r hregion hfail haden hth
    rw [hrun, hsplit, List.foldl_append, List.foldl_cons]
    rw [foldl_healthCheckStep_lookup pool collab now l2 _ e.token hl2]
    rw [healthCheckStep_at_found pool collab now _ e.token e hacc1 hee, hregion]
    dsimp only
    rw [lookupEntry_updateEntry_self]
    · rw [hacc1]
      have h1 := healthCheckOutcomeUpdate_failure pool collab now r e hfail
      have h2 : (autoDisableUpdate pool
          (healthCheckOutcomeUpdate pool collab now r e)).enabled = false ∧
          (autoDisableUpdate pool
            (healthCheckOutcomeUpdate pool collab now r e)).live = some false := by
        unfold autoDisableUpdate
        rw [if_pos (by simp [haden, h1, hth])]
        exact ⟨rfl, rfl⟩
      exact ⟨autoDisableUpdate pool (healthCheckOutcomeUpdate pool collab now r e),
        rfl, h2.1, h2.2⟩
    · intro x
      rw [autoDisableUpdate_token, healthCheckOutcomeUpdate_token]

/-- A collaborator whose liveness probe always reports the token dead. -/
def alwaysDeadCollab : HealthCollaborators :=
  { getTokenLiveStatus := fun _ _ => .ok false
    getCredit := fun _ _ => .error "credit"
    fetchDynamicCapabilities := fun _ _ => .error "caps" }

/-- C2 counterexample: an enabled entry with no region whose failure count
reaches the threshold in this pass still ends the pass with
`enabled = true` — the `continue` in the missing-region branch skips the
auto-disable step, contradicting the claim that such entries end with
`enabled = false`. -/
theorem missing_region_not_auto_disabled_cex :
    lookupEntry (runHealthCheck (mkPool .random 0
        [{ token := "a", region := none, enabled := true, live := none,
           lastCheckedAt := none, lastError := none, lastCredit := none,
           consecutiveFailures := 1, allowedModels := none,
           capabilityTags := none, dynamicCapabilities := none }])
      alwaysDeadCollab 5).1.entries "a" =
      some { token := "a", region := none, enabled := true, live := some false,
             lastCheckedAt := none, lastError := some "missing_region",
             lastCredit := none, consecutiveFailures := 2, allowedModels := none,
             capabilityTags := none, dynamicCapabilities := none } ∧
    (mkPool .random 0 []).autoDisableEnabled = true ∧
    (mkPool .random 0 []).autoDisableFailures ≤ 2 := by
  decide

/-- C2 amended, witness. -/
theorem runHealthCheck_missing_region_and_threshold_witness :
    lookupEntry (runHealthCheck (mkPool .random 0
        [{ token := "a", region := none, enabled := true, live := none,
           lastCheckedAt := none, lastError := none, lastCredit := none,
           consecutiveFailures := 1, allowedModels := none,
           capabilityTags := none, dynamicCapabilities := none }])
      alwaysDeadCollab 5).1.entries "a" =
      some { token := "a", region := none, enabled := true, live := some false,
             lastCheckedAt := none, lastError := some "missing_region",
             lastCredit := none, consecutiveFailures := 2, allowedModels := none,
             capabilityTags := none, dynamicCapabilities := none } :=
  (runHealthCheck_missing_region_and_threshold (mkPool .random 0
      [{ token := "a", region := none, enabled := true, live := none,
         lastCheckedAt := none, lastError := none, lastCredit := none,
         consecutiveFailures := 1, allowedModels := none,
         capabilityTags := none, dynamicCapabilities := none }])
    alwaysDeadCollab 5
    { token := "a", region := none, enabled := true, live := none,
      lastCheckedAt := none, lastError := none, lastCredit := none,
      consecutiveFailures := 1, allowedModels := none,
      capabilityTags := none, dynamicCapabilities := none }
    (by decide) rfl rfl (by decide) rfl).1 rfl

end Jimeng
